import Mathlib

/-!
Verification of the static asset server in `src/server.py` (a CORS-enabled
wrapper around Python's `http.server.SimpleHTTPRequestHandler`).

The request-handling behaviour of the program is the behaviour of the
subclass `CORSHTTPRequestHandler` together with the standard-library base
class it inherits from.  Pure string processing (`posixpath.splitext`,
`posixpath.normpath`, `os.path.join`, `SimpleHTTPRequestHandler.translate_path`
and `guess_type`) is embedded directly from the CPython sources; the
surrounding request/response plumbing (dispatch, `send_error`, the serve
loop, process start-up) is modelled as explicit data.  Strings are handled
as `List Char` internally so every definition evaluates by kernel reduction.
-/

namespace Server

/-! ## Character-list string utilities (Python `str` operations) -/

/-- Index of the last occurrence of `c` in `cs` (Python `str.rfind`, as an
`Option` instead of `-1`). -/
def rfindIdx (cs : List Char) (c : Char) : Option Nat :=
  match cs with
  | [] => none
  | x :: xs =>
    match rfindIdx xs c with
    | some i => some (i + 1)
    | none => if x = c then some 0 else none

/-- Python `str.split(sep)` for a one-character separator: splitting the
empty string gives `[""]`, adjacent separators give empty fields. -/
def splitChar (cs : List Char) (c : Char) : List (List Char) :=
  match cs with
  | [] => [[]]
  | x :: xs =>
    let r := splitChar xs c
    if x = c then [] :: r
    else
      match r with
      | ys :: rest => (x :: ys) :: rest
      | [] => [[x]]

/-- Python `str.rstrip()`: drop trailing whitespace. -/
def rstripChars (cs : List Char) : List Char :=
  (cs.reverse.dropWhile (fun c => c.isWhitespace)).reverse

/-- Python `str.lower()` on the characters of a string. -/
def lowerChars (cs : List Char) : List Char :=
  cs.map Char.toLower

/-- `needle` occurs as a contiguous substring of `hay`. -/
def containsSub (needle hay : List Char) : Bool :=
  (List.range (hay.length + 1)).any (fun i => (hay.drop i).take needle.length = needle)

/-! ## `posixpath` operations embedded from the CPython sources -/

/-- The extension part of `posixpath.splitext`: the suffix from the last dot
of the final path component, unless that component consists only of leading
dots (so `".bashrc"` has no extension). -/
def splitextExt (p : List Char) : List Char :=
  match rfindIdx p '.' with
  | none => []
  | some d =>
    let s : Nat :=
      match rfindIdx p '/' with
      | none => 0
      | some si => si + 1
    if ((p.drop s).take (d - s)).any (fun c => c ≠ '.') then p.drop d else []

/-- `posixpath.dirname`: everything before the last slash, with trailing
slashes stripped unless the result is all slashes; empty when the path has
no slash. -/
def dirnameChars (p : List Char) : List Char :=
  match rfindIdx p '/' with
  | none => []
  | some i =>
    let head := p.take (i + 1)
    if head ≠ [] ∧ ¬ head.all (fun c => c = '/') then
      (head.reverse.dropWhile (fun c => c = '/')).reverse
    else head

/-- The component loop of `posixpath.normpath`: drop empty and `.`
components, let `..` cancel a previous component where possible. -/
def normpathComps (initialSlashes : Bool) (comps : List (List Char)) : List (List Char) :=
  comps.foldl (fun acc comp =>
    if comp = [] ∨ comp = ['.'] then acc
    else if comp ≠ ['.', '.'] ∨ (initialSlashes = false ∧ acc = []) ∨
        acc.getLast? = some ['.', '.'] then
      acc ++ [comp]
    else acc.dropLast) []

/-- `posixpath.normpath`: collapse `.`/`..`/empty components, preserving one
or exactly two leading slashes. -/
def normpathChars (cs : List Char) : List Char :=
  if cs = [] then ['.']
  else
    let slashes : Nat :=
      if cs.take 1 = ['/'] then
        (if cs.take 2 = ['/', '/'] ∧ cs.take 3 ≠ ['/', '/', '/'] then 2 else 1)
      else 0
    let comps := splitChar cs '/'
    let nc := normpathComps (0 < slashes) comps
    let p := List.replicate slashes '/' ++ List.intercalate ['/'] nc
    if p = [] then ['.'] else p

/-- One step of `posixpath.join`: an absolute second argument replaces the
path, otherwise it is appended with a separating slash when needed. -/
def joinOne (path b : List Char) : List Char :=
  if b.take 1 = ['/'] then b
  else if path = [] ∨ path.getLast? = some '/' then path ++ b
  else path ++ '/' :: b

/-! ## Staying under the root -/

/-- A simple path component: nonempty, not `.` or `..`, and slash-free.
A path built from a root by appending only such components cannot denote a
file outside the root. -/
def plainComp (w : List Char) : Prop :=
  w ≠ [] ∧ w ≠ ['.'] ∧ w ≠ ['.', '.'] ∧ '/' ∉ w

/-- Append one component below a path, inserting a separating slash when
needed. -/
def joinUnder (acc w : List Char) : List Char :=
  if acc = [] ∨ acc.getLast? = some '/' then acc ++ w else acc ++ '/' :: w

/-- A root extended by a sequence of components. -/
def joinAllChars (root : List Char) (ws : List (List Char)) : List Char :=
  ws.foldl joinUnder root

/-- `p` lies under `root`: it is `root` extended by simple components,
possibly with a trailing slash. -/
def resolvedUnder (root p : String) : Prop :=
  ∃ ws : List (List Char), (∀ w ∈ ws, plainComp w) ∧
    (p.data = joinAllChars root.data ws ∨ p.data = joinAllChars root.data ws ++ ['/'])

/-! ## The handler subclass in `src/server.py` -/

/-- The `extensions_map` class attribute of `CORSHTTPRequestHandler`
(`src/server.py` lines 17-33), overriding the base class table. -/
def extensions_map : List (String × String) :=
  [("", "application/octet-stream"),
   (".html", "text/html"),
   (".js", "application/javascript"),
   (".mjs", "application/javascript"),
   (".css", "text/css"),
   (".json", "application/json"),
   (".png", "image/png"),
   (".jpg", "image/jpeg"),
   (".gif", "image/gif"),
   (".svg", "image/svg+xml"),
   (".wav", "audio/wav"),
   (".mp3", "audio/mpeg"),
   (".wasm", "application/wasm"),
   (".epub", "application/epub+zip"),
   (".onnx", "application/octet-stream")]

/-- Dictionary lookup in an association list (Python `dict` membership and
indexing, keys looked up left to right). -/
def lookupExt (m : List (String × String)) (e : String) : Option String :=
  (m.find? (fun p => p.1 == e)).map (fun p => p.2)

/-- The three CORS headers added by `CORSHTTPRequestHandler.end_headers`
(`src/server.py` lines 37-39), in the order they are sent. -/
def corsHeaders : List (String × String) :=
  [("Access-Control-Allow-Origin", "*"),
   ("Access-Control-Allow-Methods", "GET, POST, OPTIONS"),
   ("Access-Control-Allow-Headers", "*")]

/-- `CORSHTTPRequestHandler.end_headers` (`src/server.py` lines 35-43): the
three CORS headers are appended via `send_header` to the headers already
buffered for the response, then the base class flushes the buffer.  The
result is the full header list of the response in emission order. -/
def end_headers (buffered : List (String × String)) : List (String × String) :=
  buffered ++ corsHeaders

/-! ## The inherited request machinery (CPython `http/server.py`) -/

/-- One word-appending step of the component loop in
`SimpleHTTPRequestHandler.translate_path`: a component that is not a simple
file or directory name (nonempty `dirname`, `.` or `..`) is ignored,
otherwise it is joined onto the path built so far. -/
def stepWord (acc w : List Char) : List Char :=
  if dirnameChars w ≠ [] ∨ w = ['.'] ∨ w = ['.', '.'] then acc else joinOne acc w

/-- `SimpleHTTPRequestHandler.translate_path` from CPython, with
`self.directory` passed explicitly: strip the query and fragment, remember a
trailing slash, normalise the path, then rebuild it under the configured
directory from the simple-name components.  Percent-decoding
(`urllib.parse.unquote`) is the identity here; theorems below quantify over
the request path, so they cover every decoded form as well. -/
def translate_path (directory reqPath : String) : String :=
  let p0 := (reqPath.data.takeWhile (fun c => c ≠ '?')).takeWhile (fun c => c ≠ '#')
  let pn := normpathChars p0
  let words := (splitChar pn '/').filter (fun w => w ≠ [])
  let res := words.foldl stepWord directory.data
  if (rstripChars p0).getLast? = some '/' then String.mk (res ++ ['/'])
  else String.mk res

/-- `SimpleHTTPRequestHandler.guess_type` from CPython (3.9 and later), with
the subclass's `extensions_map` in force: the extension is looked up in the
table as-is, then lower-cased, and only then does the platform `mimetypes`
database (passed here as the parameter `mimedb`, the behaviour of
`mimetypes.guess_type`) get consulted, with `application/octet-stream` as
the final fallback. -/
def guess_type (mimedb : String → Option String) (path : String) : String :=
  let ext := String.mk (splitextExt path.data)
  match lookupExt extensions_map ext with
  | some t => t
  | none =>
    match lookupExt extensions_map (String.mk (lowerChars ext.data)) with
    | some t => t
    | none => (mimedb path).getD "application/octet-stream"

/-- Sample of the built-in default table of the Python `mimetypes` module
(`Lib/mimetypes.py`), used to instantiate the `mimedb` parameter at concrete
inputs.  Both entries are hard-coded defaults of the module, present on
every platform. -/
def mimetypes_types_map_sample : List (String × String) :=
  [(".pdf", "application/pdf"),
   (".txt", "text/plain")]

/-- `mimetypes.guess_type` restricted to the sample table: look up the
lower-cased extension of the path. -/
def mimetypes_guess_type (path : String) : Option String :=
  lookupExt mimetypes_types_map_sample (String.mk (lowerChars (splitextExt path.data)))

/-- A `mimetypes` database with no entry for any path (so
`mimetypes.guess_type` reaches its fallback). -/
def mimedbEmpty : String → Option String := fun _ => none

/-- An HTTP response as observed on the wire: status code, the headers in
emission order, and the body bytes. -/
structure Response where
  status : Nat
  headers : List (String × String)
  body : String
  deriving DecidableEq, Repr

/-- Headers buffered by `BaseHTTPRequestHandler.send_response` before the
handler adds its own: the `Server` and `Date` headers (their values are
environment-dependent, so they are parameters). -/
def send_response_buffer (server date : String) : List (String × String) :=
  [("Server", server), ("Date", date)]

/-- Modelled from the spec: the body of a standard HTTP error response
(`BaseHTTPRequestHandler.send_error` writes an HTML page built from the
code and message; the exact markup is immaterial to the claims). -/
def errorBody (code : Nat) (message : String) : String :=
  "<html><body>Error response: code " ++ toString code ++ ", message " ++ message ++
    "</body></html>"

/-- Headers of a `send_error` response: the error content type, a
`Connection: close` and the body length, buffered after `send_response`'s
headers and flushed through the subclass's `end_headers`. -/
def errorResponse (server date : String) (code : Nat) (message : String) : Response :=
  { status := code,
    headers := end_headers (send_response_buffer server date ++
      [("Content-Type", "text/html;charset=utf-8"),
       ("Connection", "close"),
       ("Content-Length", toString (errorBody code message).length)]),
    body := errorBody code message }

/-- `CORSHTTPRequestHandler.do_OPTIONS` (`src/server.py` lines 45-47):
`send_response(200)` followed by `end_headers()`, writing no body and
touching neither the filesystem nor the request path. -/
def do_OPTIONS (server date : String) : Response :=
  { status := 200,
    headers := end_headers (send_response_buffer server date),
    body := "" }

/-- The filesystem visible to the handler: an association of absolute file
paths to file contents. -/
def lookupFs (fs : List (String × String)) (p : String) : Option String :=
  (fs.find? (fun e => e.1 == p)).map (fun e => e.2)

/-- `SimpleHTTPRequestHandler.do_GET`/`do_HEAD` via `send_head`, for the
plain-file fragment of the handler (directory redirect/listing is out of
scope of the claims): resolve the path with `translate_path`; if a file is
there, reply `200` with the `guess_type` content type and the content
length, streaming the bytes for `GET`; otherwise `send_error(404, "File not
found")`. -/
def do_GET (fs : List (String × String)) (root : String) (mimedb : String → Option String)
    (server date reqPath : String) (isHead : Bool) : Response :=
  let resolved := translate_path root reqPath
  match lookupFs fs resolved with
  | some content =>
    { status := 200,
      headers := end_headers (send_response_buffer server date ++
        [("Content-type", guess_type mimedb resolved),
         ("Content-Length", toString content.length)]),
      body := if isHead then "" else content }
  | none => errorResponse server date 404 "File not found"

/-- Method dispatch of `BaseHTTPRequestHandler.handle_one_request`: the
methods the handler class defines are routed to `do_OPTIONS`, `do_GET` and
`do_HEAD`; any other method gets `send_error(501, "Unsupported method")`. -/
def handle (fs : List (String × String)) (root : String) (mimedb : String → Option String)
    (server date method reqPath : String) : Response :=
  if method = "OPTIONS" then do_OPTIONS server date
  else if method = "GET" then do_GET fs root mimedb server date reqPath false
  else if method = "HEAD" then do_GET fs root mimedb server date reqPath true
  else errorResponse server date 501 "Unsupported method"

/-- Modelled from the spec: the serve loop (`serve_forever`) handles each
incoming request independently and statelessly, so a run of the server over
a sequence of requests is the pointwise image of `handle`. -/
def serveAll (fs : List (String × String)) (root : String) (mimedb : String → Option String)
    (server date : String) (reqs : List (String × String)) : List Response :=
  reqs.map (fun r => handle fs root mimedb server date r.1 r.2)

/-! ## Process start-up and shutdown (`run_server`, `src/server.py` 49-74) -/

/-- The fixed listening port (`src/server.py` line 10). -/
def PORT : Nat := 8090

/-- The URL printed in the banner and opened in the browser
(`src/server.py` line 55). -/
def serveUrl : String := "http://localhost:" ++ toString PORT ++ "/web/"

/-- Observable process-level events of `run_server`, in order. -/
inductive Event where
  | chdir (dir : String)
  | bind (port : Nat)
  | printBanner (url : String)
  | openBrowser (url : String)
  | serve
  | printGoodbye
  deriving DecidableEq, BEq, Repr

/-- Outcome of one process run: the events it performed and its exit code. -/
structure ProcResult where
  events : List Event
  exitCode : Nat
  deriving DecidableEq, Repr

/-- `run_server` (`src/server.py` lines 49-74) as a trace over the two
environment conditions that decide its control flow: whether the configured
directory exists (`os.chdir` raises `FileNotFoundError` otherwise, which no
handler catches, so the interpreter exits with code 1) and whether binding
the port succeeds (`TCPServer(...)` raises `OSError` otherwise, likewise
uncaught).  On success the banner is printed, `webbrowser.open(url)` is
called, and `serve_forever` runs until `KeyboardInterrupt`, which is caught:
the goodbye message is printed and the process falls off `run_server`,
exiting normally with code 0. -/
def run_server (rootExists bindOk : Bool) (dir : String) : ProcResult :=
  match rootExists, bindOk with
  | false, _ => { events := [], exitCode := 1 }
  | true, false => { events := [Event.chdir dir], exitCode := 1 }
  | true, true =>
    { events := [Event.chdir dir, Event.bind PORT, Event.printBanner serveUrl,
                 Event.openBrowser serveUrl, Event.serve, Event.printGoodbye],
      exitCode := 0 }

/-! ## Helper lemmas -/

theorem not_mem_of_rfindIdx_none (cs : List Char) (c : Char)
    (h : rfindIdx cs c = none) : c ∉ cs := by
  induction cs with
  | nil => simp
  | cons x xs ih =>
    unfold rfindIdx at h
    rcases hr : rfindIdx xs c with _ | i
    · rw [hr] at h
      intro hmem
      rcases List.mem_cons.mp hmem with hx | hx
      · rw [hx] at h; simp at h
      · exact ih hr hx
    · rw [hr] at h; simp at h

theorem rfindIdx_ne_nil (cs : List Char) (c : Char) (i : Nat)
    (h : rfindIdx cs c = some i) : cs ≠ [] := by
  intro hnil
  rw [hnil] at h
  simp [rfindIdx] at h

theorem dirnameChars_ne_nil (w : List Char) (i : Nat)
    (h : rfindIdx w '/' = some i) : dirnameChars w ≠ [] := by
  have hw : w ≠ [] := rfindIdx_ne_nil w '/' i h
  have hhead : w.take (i + 1) ≠ [] := by
    cases w with
    | nil => exact absurd rfl hw
    | cons a as => simp [List.take]
  unfold dirnameChars
  rw [h]
  dsimp only
  by_cases hall : (w.take (i + 1)).all (fun c => decide (c = '/')) = true
  · rw [if_neg (by simp [hall])]
    exact hhead
  · rw [if_pos ⟨hhead, by simpa using hall⟩]
    intro hdrop
    apply hall
    rw [List.all_eq_true]
    intro x hx
    have hx' : x ∈ (w.take (i + 1)).reverse := List.mem_reverse.mpr hx
    have hnil : ((w.take (i + 1)).reverse.dropWhile (fun c => decide (c = '/'))) = [] := by
      simpa using hdrop
    have := List.dropWhile_eq_nil_iff.mp hnil x hx'
    simpa using this

theorem no_slash_of_dirname_nil (w : List Char) (h : dirnameChars w = []) :
    '/' ∉ w := by
  rcases hr : rfindIdx w '/' with _ | i
  · exact not_mem_of_rfindIdx_none w '/' hr
  · exact absurd h (dirnameChars_ne_nil w i hr)

theorem joinOne_eq_joinUnder (acc w : List Char) (h : '/' ∉ w) :
    joinOne acc w = joinUnder acc w := by
  have h1 : ¬ (w.take 1 = ['/']) := by
    cases w with
    | nil => simp
    | cons c cs =>
      intro ht
      have hc : c = '/' := by simpa [List.take] using ht
      exact h (hc ▸ List.mem_cons_self c cs)
  unfold joinOne joinUnder
  rw [if_neg h1]

theorem foldl_stepWord_under (root : List Char) (ws : List (List Char)) :
    ∀ acc : List Char,
      (∃ vs, (∀ v ∈ vs, plainComp v) ∧ acc = joinAllChars root vs) →
      (∀ w ∈ ws, w ≠ []) →
      ∃ vs, (∀ v ∈ vs, plainComp v) ∧ ws.foldl stepWord acc = joinAllChars root vs := by
  induction ws with
  | nil =>
    intro acc h _
    simpa using h
  | cons w ws ih =>
    intro acc hacc hne
    rw [List.foldl_cons]
    by_cases hc : dirnameChars w ≠ [] ∨ w = ['.'] ∨ w = ['.', '.']
    · rw [show stepWord acc w = acc from by rw [stepWord, if_pos hc]]
      exact ih acc hacc (fun x hx => hne x (List.mem_cons_of_mem _ hx))
    · have hc' := hc
      push_neg at hc'
      obtain ⟨hd, hdot, hdd⟩ := hc'
      have hslash : '/' ∉ w := no_slash_of_dirname_nil w hd
      have hwne : w ≠ [] := hne w (List.mem_cons_self w ws)
      obtain ⟨vs, hvs, hacceq⟩ := hacc
      rw [show stepWord acc w = joinOne acc w from by rw [stepWord, if_neg hc]]
      rw [joinOne_eq_joinUnder acc w hslash]
      apply ih (joinUnder acc w) ?_ (fun x hx => hne x (List.mem_cons_of_mem _ hx))
      refine ⟨vs ++ [w], ?_, ?_⟩
      · intro v hv
        rcases List.mem_append.mp hv with h1 | h2
        · exact hvs v h1
        · have hvw : v = w := by simpa using h2
          rw [hvw]
          exact ⟨hwne, hdot, hdd, hslash⟩
      · rw [hacceq]
        simp [joinAllChars, List.foldl_append]

theorem translate_path_under (root reqPath : String) :
    resolvedUnder root (translate_path root reqPath) := by
  unfold translate_path
  dsimp only
  set p0 := (reqPath.data.takeWhile (fun c => c ≠ '?')).takeWhile (fun c => c ≠ '#') with hp0
  set words := (splitChar (normpathChars p0) '/').filter (fun w => w ≠ []) with hwords
  have hne : ∀ w ∈ words, w ≠ [] := by
    intro w hw
    rw [hwords] at hw
    have := (List.mem_filter.mp hw).2
    simpa using this
  obtain ⟨vs, hvs, heq⟩ :=
    foldl_stepWord_under root.data words root.data ⟨[], by simp, rfl⟩ hne
  by_cases htr : (rstripChars p0).getLast? = some '/'
  · rw [if_pos htr]
    exact ⟨vs, hvs, Or.inr (by rw [← heq])⟩
  · rw [if_neg htr]
    exact ⟨vs, hvs, Or.inl (by rw [← heq])⟩

theorem lookupExt_of_mem (e m : String) (h : (e, m) ∈ extensions_map) :
    lookupExt extensions_map e = some m := by
  unfold extensions_map at h
  fin_cases h <;> rfl

theorem handle_headers_split (fs : List (String × String)) (root : String)
    (mimedb : String → Option String) (server date method reqPath : String) :
    ∃ pre, (handle fs root mimedb server date method reqPath).headers = pre ++ corsHeaders := by
  unfold handle do_OPTIONS do_GET errorResponse
  split_ifs <;>
    first
      | exact ⟨_, rfl⟩
      | (dsimp only; split <;> exact ⟨_, rfl⟩)

/-! ## Claims -/

/-- Claim C1: for every extension listed in the extension-to-MIME table
(including the empty extension), a GET request resolving to an existing file
with that extension is answered with status 200 and a `Content-Type` header
whose value is exactly the MIME string the table gives for that extension.
(`Content-type` is the spelling `send_head` uses for the header name;
header names are case-insensitive on the wire.) -/
theorem c1_extension_table (e m : String) (mimedb : String → Option String)
    (fs : List (String × String)) (root server date reqPath content : String)
    (hmem : (e, m) ∈ extensions_map)
    (hext : String.mk (splitextExt (translate_path root reqPath).data) = e)
    (hfound : lookupFs fs (translate_path root reqPath) = some content) :
    (handle fs root mimedb server date "GET" reqPath).status = 200 ∧
    ("Content-type", m) ∈ (handle fs root mimedb server date "GET" reqPath).headers := by
  have hguess : guess_type mimedb (translate_path root reqPath) = m := by
    unfold guess_type
    rw [hext]
    dsimp only
    rw [lookupExt_of_mem e m hmem]
  have hh : handle fs root mimedb server date "GET" reqPath =
      do_GET fs root mimedb server date reqPath false := by
    unfold handle
    rw [if_neg (by decide), if_pos rfl]
  rw [hh]
  unfold do_GET
  dsimp only
  rw [hfound]
  dsimp only
  rw [hguess]
  exact ⟨rfl, by simp [end_headers, send_response_buffer, corsHeaders]⟩

theorem c1_extension_table_witness :
    (handle [("/r/web/index.html", "<html></html>")] "/r" mimedbEmpty
        "S" "D" "GET" "/web/index.html").status = 200 ∧
    ("Content-type", "text/html") ∈ (handle [("/r/web/index.html", "<html></html>")] "/r"
        mimedbEmpty "S" "D" "GET" "/web/index.html").headers :=
  c1_extension_table ".html" "text/html" mimedbEmpty
    [("/r/web/index.html", "<html></html>")] "/r" "S" "D" "/web/index.html" "<html></html>"
    (by decide) (by decide) (by decide)

/-- Claim C2: every HTTP response the server emits, for every request path,
method, filesystem and environment (so in particular for status 200, 404 and
501 responses), contains all three CORS headers
`Access-Control-Allow-Origin: *`, `Access-Control-Allow-Methods: GET, POST,
OPTIONS` and `Access-Control-Allow-Headers: *`. -/
theorem c2_cors_on_every_response (fs : List (String × String)) (root : String)
    (mimedb : String → Option String) (server date method reqPath : String) :
    ("Access-Control-Allow-Origin", "*") ∈
      (handle fs root mimedb server date method reqPath).headers ∧
    ("Access-Control-Allow-Methods", "GET, POST, OPTIONS") ∈
      (handle fs root mimedb server date method reqPath).headers ∧
    ("Access-Control-Allow-Headers", "*") ∈
      (handle fs root mimedb server date method reqPath).headers := by
  obtain ⟨pre, hp⟩ := handle_headers_split fs root mimedb server date method reqPath
  rw [hp]
  refine ⟨?_, ?_, ?_⟩ <;> simp [corsHeaders]

/-- Claim C3: an `OPTIONS` request to any path is answered with status 200,
an empty body and the three CORS headers, and its handling performs no
filesystem access: the response is the same for every filesystem, root
directory, mime database and path — in particular for a filesystem on which
the configured root directory does not exist at all. -/
theorem c3_options_no_fs (fs fs2 : List (String × String)) (root root2 : String)
    (mimedb mimedb2 : String → Option String) (server date reqPath reqPath2 : String) :
    (handle fs root mimedb server date "OPTIONS" reqPath).status = 200 ∧
    (handle fs root mimedb server date "OPTIONS" reqPath).body = "" ∧
    ("Access-Control-Allow-Origin", "*") ∈
      (handle fs root mimedb server date "OPTIONS" reqPath).headers ∧
    ("Access-Control-Allow-Methods", "GET, POST, OPTIONS") ∈
      (handle fs root mimedb server date "OPTIONS" reqPath).headers ∧
    ("Access-Control-Allow-Headers", "*") ∈
      (handle fs root mimedb server date "OPTIONS" reqPath).headers ∧
    handle fs2 root2 mimedb2 server date "OPTIONS" reqPath2 =
      handle fs root mimedb server date "OPTIONS" reqPath := by
  have h : ∀ (fs' : List (String × String)) (root' : String)
      (mimedb' : String → Option String) (reqPath' : String),
      handle fs' root' mimedb' server date "OPTIONS" reqPath' = do_OPTIONS server date := by
    intro fs' root' mimedb' reqPath'
    unfold handle
    rw [if_pos rfl]
  rw [h fs root mimedb reqPath, h fs2 root2 mimedb2 reqPath2]
  refine ⟨rfl, rfl, ?_, ?_, ?_, rfl⟩ <;>
    simp [do_OPTIONS, end_headers, send_response_buffer, corsHeaders]

/-- Claim C4: a GET request whose path contains `../` segments cannot be
served the contents of a file outside the configured root directory: the
path the handler resolves to always lies under the root (it is the root
extended by slash-free, non-`..` components), and a 200 response body is
exactly the filesystem's content at that resolved path. -/
theorem c4_no_escape (fs : List (String × String)) (root : String)
    (mimedb : String → Option String) (server date reqPath : String)
    (_hdots : containsSub "../".data reqPath.data = true) :
    resolvedUnder root (translate_path root reqPath) ∧
    ((handle fs root mimedb server date "GET" reqPath).status = 200 →
      ∃ content, lookupFs fs (translate_path root reqPath) = some content ∧
        (handle fs root mimedb server date "GET" reqPath).body = content) := by
  refine ⟨translate_path_under root reqPath, ?_⟩
  have hh : handle fs root mimedb server date "GET" reqPath =
      do_GET fs root mimedb server date reqPath false := by
    unfold handle
    rw [if_neg (by decide), if_pos rfl]
  rw [hh]
  unfold do_GET
  dsimp only
  rcases hl : lookupFs fs (translate_path root reqPath) with _ | content
  · intro h200
    simp [errorResponse] at h200
  · intro _
    exact ⟨content, rfl, rfl⟩

theorem c4_no_escape_witness :
    resolvedUnder "/r" (translate_path "/r" "/web/../../etc/passwd") ∧
    ((handle [] "/r" mimedbEmpty "S" "D" "GET" "/web/../../etc/passwd").status = 200 →
      ∃ content, lookupFs [] (translate_path "/r" "/web/../../etc/passwd") = some content ∧
        (handle [] "/r" mimedbEmpty "S" "D" "GET" "/web/../../etc/passwd").body = content) :=
  c4_no_escape [] "/r" mimedbEmpty "S" "D" "/web/../../etc/passwd" (by decide)

/-- Claim C5 fails as stated: the three CORS headers do not precede all other
headers in emission order.  `end_headers` appends them to the headers already
buffered by `send_response` and the handler (`Server`, `Date`,
`Content-type`, `Content-Length`), so on this concrete 200 response the
first emitted header is `Server`, not a CORS header. -/
theorem c5_counterexample :
    (handle [("/r/a.html", "x")] "/r" mimedbEmpty "ServerX" "DateX" "GET" "/a.html").headers =
      [("Server", "ServerX"), ("Date", "DateX"), ("Content-type", "text/html"),
       ("Content-Length", "1")] ++ corsHeaders ∧
    (handle [("/r/a.html", "x")] "/r" mimedbEmpty
        "ServerX" "DateX" "GET" "/a.html").headers.take 3 ≠ corsHeaders := by
  constructor
  · decide
  · decide

/-- Claim C5 as amended: on every response path the three CORS headers are
added by `end_headers` before the header block is flushed, so every emitted
header list ends with the three CORS headers (they follow the headers the
handler buffered earlier, rather than preceding them). -/
theorem c5_cors_always_appended (fs : List (String × String)) (root : String)
    (mimedb : String → Option String) (server date method reqPath : String) :
    ∃ pre, (handle fs root mimedb server date method reqPath).headers = pre ++ corsHeaders :=
  handle_headers_split fs root mimedb server date method reqPath

theorem handle_get_found (fs : List (String × String)) (root : String)
    (mimedb : String → Option String) (server date reqPath content : String)
    (hfound : lookupFs fs (translate_path root reqPath) = some content) :
    (handle fs root mimedb server date "GET" reqPath).status = 200 ∧
    (handle fs root mimedb server date "GET" reqPath).headers =
      send_response_buffer server date ++
        [("Content-type", guess_type mimedb (translate_path root reqPath)),
         ("Content-Length", toString content.length)] ++ corsHeaders ∧
    (handle fs root mimedb server date "GET" reqPath).body = content := by
  have hh : handle fs root mimedb server date "GET" reqPath =
      do_GET fs root mimedb server date reqPath false := by
    unfold handle
    rw [if_neg (by decide), if_pos rfl]
  rw [hh]
  unfold do_GET
  dsimp only
  rw [hfound]
  dsimp only
  exact ⟨rfl, by simp [end_headers], rfl⟩

/-- Claim C6 fails as stated: for a file with an extension outside the table,
`guess_type` does not fall straight back to `application/octet-stream` — it
first consults the platform `mimetypes` database.  On this concrete request
for `doc.pdf` (with the `mimetypes` module's built-in `.pdf` entry in force)
the response's content type is `application/pdf`, and no header of the
response carries `application/octet-stream`. -/
theorem c6_counterexample :
    lookupExt extensions_map ".pdf" = none ∧
    (handle [("/r/doc.pdf", "P")] "/r" mimetypes_guess_type
        "S" "D" "GET" "/doc.pdf").status = 200 ∧
    ("Content-type", "application/pdf") ∈
      (handle [("/r/doc.pdf", "P")] "/r" mimetypes_guess_type "S" "D" "GET" "/doc.pdf").headers ∧
    ("Content-type", "application/octet-stream") ∉
      (handle [("/r/doc.pdf", "P")] "/r" mimetypes_guess_type "S" "D" "GET" "/doc.pdf").headers ∧
    ("Content-Type", "application/octet-stream") ∉
      (handle [("/r/doc.pdf", "P")] "/r" mimetypes_guess_type "S" "D" "GET" "/doc.pdf").headers := by
  decide

/-- Claim C6 as amended: a GET request resolving to an existing file whose
name has no extension is served with content type
`application/octet-stream` (the table's empty-extension entry); one whose
extension is not in the table (directly or lower-cased) is served with the
platform `mimetypes` database's type for the path, falling back to
`application/octet-stream` when that database has none. -/
theorem c6_unknown_extension (fs : List (String × String)) (root : String)
    (mimedb : String → Option String) (server date reqPath content : String)
    (hfound : lookupFs fs (translate_path root reqPath) = some content) :
    (String.mk (splitextExt (translate_path root reqPath).data) = "" →
      ("Content-type", "application/octet-stream") ∈
        (handle fs root mimedb server date "GET" reqPath).headers) ∧
    (lookupExt extensions_map (String.mk (splitextExt (translate_path root reqPath).data)) = none →
      lookupExt extensions_map
        (String.mk (lowerChars (splitextExt (translate_path root reqPath).data))) = none →
      ("Content-type", (mimedb (translate_path root reqPath)).getD "application/octet-stream") ∈
        (handle fs root mimedb server date "GET" reqPath).headers) := by
  obtain ⟨-, hheaders, -⟩ :=
    handle_get_found fs root mimedb server date reqPath content hfound
  constructor
  · intro hext
    have hg : guess_type mimedb (translate_path root reqPath) = "application/octet-stream" := by
      unfold guess_type
      rw [hext]
      rfl
    rw [hheaders, hg]
    simp [send_response_buffer, corsHeaders]
  · intro h1 h2
    have hg : guess_type mimedb (translate_path root reqPath) =
        (mimedb (translate_path root reqPath)).getD "application/octet-stream" := by
      unfold guess_type
      dsimp only
      rw [h1]
      dsimp only
      rw [h2]
    rw [hheaders, hg]
    simp [send_response_buffer, corsHeaders]

theorem c6_unknown_extension_witness :
    ("Content-type", "application/octet-stream") ∈
      (handle [("/r/data.xyz", "d")] "/r" mimedbEmpty "S" "D" "GET" "/data.xyz").headers :=
  (c6_unknown_extension [("/r/data.xyz", "d")] "/r" mimedbEmpty "S" "D" "/data.xyz" "d"
      (by decide)).2 (by decide) (by decide)

/-- Claim C7: a GET request whose path does not resolve to an existing file
under the root is answered with status 404, and the failure is recovered
per-request: in a run over any request sequence containing it, every other
request is still served with exactly the response it would get on its
own. -/
theorem c7_missing_file_404 (fs : List (String × String)) (root : String)
    (mimedb : String → Option String) (server date reqPath : String)
    (pre post : List (String × String))
    (hmiss : lookupFs fs (translate_path root reqPath) = none) :
    (handle fs root mimedb server date "GET" reqPath).status = 404 ∧
    serveAll fs root mimedb server date (pre ++ [("GET", reqPath)] ++ post) =
      serveAll fs root mimedb server date pre ++
        [handle fs root mimedb server date "GET" reqPath] ++
        serveAll fs root mimedb server date post := by
  constructor
  · have hh : handle fs root mimedb server date "GET" reqPath =
        do_GET fs root mimedb server date reqPath false := by
      unfold handle
      rw [if_neg (by decide), if_pos rfl]
    rw [hh]
    unfold do_GET
    dsimp only
    rw [hmiss]
    rfl
  · simp [serveAll]

theorem c7_missing_file_404_witness :
    (handle [] "/r" mimedbEmpty "S" "D" "GET" "/missing.xyz").status = 404 ∧
    serveAll [] "/r" mimedbEmpty "S" "D"
        ([("OPTIONS", "/a")] ++ [("GET", "/missing.xyz")] ++ [("GET", "/b")]) =
      serveAll [] "/r" mimedbEmpty "S" "D" [("OPTIONS", "/a")] ++
        [handle [] "/r" mimedbEmpty "S" "D" "GET" "/missing.xyz"] ++
        serveAll [] "/r" mimedbEmpty "S" "D" [("GET", "/b")] :=
  c7_missing_file_404 [] "/r" mimedbEmpty "S" "D" "/missing.xyz"
    [("OPTIONS", "/a")] [("GET", "/b")] (by decide)

/-- Claim C8: when the process is interrupted during serving it prints the
farewell message and exits with status code 0; when binding the listening
port fails at startup the process exits with a non-zero status. -/
theorem c8_exit_codes (dir : String) :
    (run_server true true dir).exitCode = 0 ∧
    Event.printGoodbye ∈ (run_server true true dir).events ∧
    (run_server true false dir).exitCode ≠ 0 := by
  refine ⟨rfl, ?_, ?_⟩
  · simp [run_server]
  · simp [run_server]

/-- Claim C9: on every successful startup (bind succeeds) the browser is
launched exactly once, pointed at `http://localhost:8090/web/`, and this
happens before the serve loop starts handling requests. -/
theorem c9_browser_once (dir : String) :
    serveUrl = "http://localhost:8090/web/" ∧
    (run_server true true dir).events.count (Event.openBrowser serveUrl) = 1 ∧
    (run_server true true dir).events.indexOf (Event.openBrowser serveUrl) <
      (run_server true true dir).events.indexOf Event.serve := by
  refine ⟨rfl, rfl, ?_⟩
  have h3 : (run_server true true dir).events.indexOf (Event.openBrowser serveUrl) = 3 := rfl
  have h4 : (run_server true true dir).events.indexOf Event.serve = 4 := rfl
  rw [h3, h4]
  decide

/-- Claim C10: `run_server` changes the working directory to the configured
root before binding the socket — `chdir` is the first event, preceding the
bind — and when the root directory does not exist the process fails before
anything is served: no event occurs and the exit code is non-zero. -/
theorem c10_chdir_before_bind (dir : String) (bindOk : Bool) :
    (run_server true bindOk dir).events.head? = some (Event.chdir dir) ∧
    (run_server true true dir).events.take 2 = [Event.chdir dir, Event.bind PORT] ∧
    (run_server false bindOk dir).events = [] ∧
    (run_server false bindOk dir).exitCode ≠ 0 := by
  cases bindOk <;> exact ⟨rfl, rfl, rfl, by simp [run_server]⟩

end Server
